import Mathlib

/-!
# gosignal: signal dispatch, verified against `signal.go`

A shallow embedding of `signal.go`.

* `Signal` holds the fields of the Go struct that dispatch reads and the
  public methods write.  The two channels and the goroutines started by `Run`
  live in `Proc`, the process-level state.
* A Go map is a function from keys to `Option` values (`none`: key absent).
  Only key presence and the stored value are observable in `signal.go`
  (no iteration), so the function view loses nothing, and a nil map reads
  like the empty one.  Map writes are those of an instance made by
  `NewSignal`, whose maps are allocated.
* A handler body is arbitrary Go code.  Dispatch is modelled up to the call:
  every `h(sig, args...)` and every `go h(sig, args...)` is recorded as an
  `Event`, together with every `fmt.Printf` made by `verbosef`.  A handler
  body is taken to leave the fields of the instance alone.  Whether it returns
  is an input of each signal arrival: a body called inline that does not
  return (one that calls `s.Disable()`, say, and so waits for the mutex its
  own goroutine holds) keeps its loop inside `s.handler` with the mutex held.
-/

namespace Gosignal

/-! ## Data model -/

/-- An `os.Signal` value as delivered by `os/signal`: a `syscall.Signal`, which is an `int`. -/
abbrev SignalID := Int

/-- Identity of a non-nil `SignalHandler` function value (what `%p` prints). -/
abbrev HandlerRef := Nat

/-- One element of `args ...interface{}`: `none` is the nil interface value. -/
abbrev Arg := Option Nat

/-- Observable effects of dispatch, in program order. -/
inductive Event where
  /-- A `fmt.Printf` reached inside `verbosef`: the signal, the state text and the `%p` argument
  when the format has one (`some none` is a nil pointer argument). -/
  | print (sig : SignalID) (state : String) (ptr : Option (Option HandlerRef))
  /-- Inline call `h(sig, args...)`: the handler body runs inside dispatch. -/
  | call (h : HandlerRef) (sig : SignalID) (args : List Arg)
  /-- Go statement `go h(sig, args...)`: the handler body runs in a new goroutine. -/
  | spawn (h : HandlerRef) (sig : SignalID) (args : List Arg)
  deriving DecidableEq, Repr

/-- Label of the `return` point that `Signal.handler` reaches (lines 126, 131, 143, 146, 156, 159). -/
inductive Outcome where
  | disabled
  | ignored
  | handlerInvoked
  | registeredUnset
  | defaultInvoked
  | unhandled
  deriving DecidableEq, Repr

/-- The fields of `type Signal struct` other than the mutex and the two channels. -/
structure Signal where
  /-- Field `defaultHandler SignalHandler`; `none` is nil. -/
  defaultHandler : Option HandlerRef
  /-- Field `set map[os.Signal]SignalHandler`; `some none` is a key bound to a nil handler. -/
  set : SignalID → Option (Option HandlerRef)
  /-- Field `ignore map[os.Signal]bool`. -/
  ignore : SignalID → Option Bool
  /-- Field `enable bool`. -/
  enable : Bool
  /-- Field `tips bool`. -/
  tips : Bool
  /-- Field `goroutine bool`. -/
  goroutine : Bool

/-- Map write `m[k] = v`. -/
def mapSet {V : Type} (m : SignalID → Option V) (k : SignalID) (v : V) : SignalID → Option V :=
  fun x => if x = k then some v else m x

/-- Map removal `delete(m, k)`. -/
def mapDelete {V : Type} (m : SignalID → Option V) (k : SignalID) : SignalID → Option V :=
  fun x => if x = k then none else m x

/-! ## Constructor and setters (`signal.go` lines 26-95) -/

/-- Constructor `NewSignal`: empty maps, `enable` and `tips` set, the other fields at their zero value. -/
def NewSignal : Signal :=
  { defaultHandler := none
    set := fun _ => none
    ignore := fun _ => none
    enable := true
    tips := true
    goroutine := false }

/-- Method `SetVerbose`: `s.tips = b`. -/
def SetVerbose (s : Signal) (b : Bool) : Signal := { s with tips := b }

/-- Method `SetConcurrent`: `s.goroutine = b`. -/
def SetConcurrent (s : Signal) (b : Bool) : Signal := { s with goroutine := b }

/-- Method `SetDefaultHandler`: `s.defaultHandler = handler`. -/
def SetDefaultHandler (s : Signal) (h : Option HandlerRef) : Signal := { s with defaultHandler := h }

/-- Method `RegisterSignalHandler`: `s.set[sig] = h`, also for a nil `h`. -/
def RegisterSignalHandler (s : Signal) (sig : SignalID) (h : Option HandlerRef) : Signal :=
  { s with set := mapSet s.set sig h }

/-- Method `UnregisterSignalHandler`: `delete(s.set, sig)`. -/
def UnregisterSignalHandler (s : Signal) (sig : SignalID) : Signal :=
  { s with set := mapDelete s.set sig }

/-- Method `SetIgnoreSignal`: `s.ignore[sig] = true`. -/
def SetIgnoreSignal (s : Signal) (sig : SignalID) : Signal :=
  { s with ignore := mapSet s.ignore sig true }

/-- Method `DelIgnoreSignal`: `delete(s.ignore, sig)`. -/
def DelIgnoreSignal (s : Signal) (sig : SignalID) : Signal :=
  { s with ignore := mapDelete s.ignore sig }

/-- Method `Disable`: `s.enable = false`. -/
def Disable (s : Signal) : Signal := { s with enable := false }

/-- Method `Enable`: `s.enable = true`. -/
def Enable (s : Signal) : Signal := { s with enable := true }

/-! ## Dispatch (`signal.go` lines 120-174) -/

/-- Method `verbosef`: nothing when `tips` is off, otherwise one `fmt.Printf`.  Both branches on
`runtime.Caller` print the same format and arguments, one of them after a `file:line` text that
the event does not carry. -/
def verbosef (s : Signal) (sig : SignalID) (state : String) (ptr : Option (Option HandlerRef)) :
    List Event :=
  if !s.tips then [] else [Event.print sig state ptr]

/-- The `if s.goroutine { go h(sig, args...) } else { h(sig, args...) }` statement. -/
def invoke (s : Signal) (h : HandlerRef) (sig : SignalID) (args : List Arg) : Event :=
  if s.goroutine then Event.spawn h sig args else Event.call h sig args

/-- Method `Signal.handler`, run under the mutex: the return point reached and the events produced.
The fields of the receiver are only read. -/
def handler (s : Signal) (sig : SignalID) (args : List Arg) : Outcome × List Event :=
  if !s.enable then
    (Outcome.disabled, verbosef s sig "disable handlers" none)
  else if (s.ignore sig).isSome then
    (Outcome.ignored, verbosef s sig "ignore signal" none)
  else
    match s.set sig with
    | some (some h) =>
      (Outcome.handlerInvoked,
        verbosef s sig "call handler" (some (some h)) ++ [invoke s h sig args])
    | some none =>
      (Outcome.registeredUnset, verbosef s sig "registered but not set handler" none)
    | none =>
      match s.defaultHandler with
      | some d =>
        (Outcome.defaultInvoked,
          verbosef s sig "call default handler" (some none) ++ [invoke s d sig args])
      | none =>
        (Outcome.unhandled,
          verbosef s sig "unregistered handler and unset default handler" none)

/-- One handler invocation found in a trace: which handler, with which signal and arguments. -/
structure Invocation where
  h : HandlerRef
  sig : SignalID
  args : List Arg
  deriving DecidableEq, Repr

/-- The handler invocations of a trace, inline and detached alike, in order. -/
def invocations : List Event → List Invocation
  | [] => []
  | Event.print _ _ _ :: es => invocations es
  | Event.call h sig args :: es => ⟨h, sig, args⟩ :: invocations es
  | Event.spawn h sig args :: es => ⟨h, sig, args⟩ :: invocations es

/-! ## Views of a dispatch trace -/

/-- The diagnostic lines of a trace: for each `fmt.Printf`, the signal and the state text. -/
def diagnostics : List Event → List (SignalID × String)
  | [] => []
  | Event.print sig state _ :: es => (sig, state) :: diagnostics es
  | Event.call _ _ _ :: es => diagnostics es
  | Event.spawn _ _ _ :: es => diagnostics es

/-- The invocations of a trace whose body runs inside dispatch (`h(sig, args...)`). -/
def inlineCalls : List Event → List Invocation
  | [] => []
  | Event.call h sig args :: es => ⟨h, sig, args⟩ :: inlineCalls es
  | Event.print _ _ _ :: es => inlineCalls es
  | Event.spawn _ _ _ :: es => inlineCalls es

/-- The invocations of a trace launched as goroutines (`go h(sig, args...)`). -/
def detached : List Event → List Invocation
  | [] => []
  | Event.spawn h sig args :: es => ⟨h, sig, args⟩ :: detached es
  | Event.print _ _ _ :: es => detached es
  | Event.call _ _ _ :: es => detached es

/-- The state text that `Signal.handler` passes to `verbosef` before each return point
(lines 125, 130, 137, 145, 150, 158). -/
def stateText : Outcome → String
  | Outcome.disabled => "disable handlers"
  | Outcome.ignored => "ignore signal"
  | Outcome.handlerInvoked => "call handler"
  | Outcome.registeredUnset => "registered but not set handler"
  | Outcome.defaultInvoked => "call default handler"
  | Outcome.unhandled => "unregistered handler and unset default handler"

/-! ## Delivery loop and lifecycle (`signal.go` lines 97-118) -/

/-- What the `select` of a loop iteration receives. -/
inductive Recv where
  /-- Case `case <-s.stop`. -/
  | stop
  /-- Case `case sig := <-s.sig`. -/
  | sig (x : SignalID)
  deriving DecidableEq, Repr

/-- How a Go statement completes: normally, or by a `break` that has not yet met the statement
it terminates. -/
inductive Completion where
  | normal
  | breaks
  deriving DecidableEq, Repr

/-- The statement list of the selected case: `break` for the stop case, `s.handler(sig, nil)`
for the signal case.  The call passes one variadic argument, the nil interface value. -/
def caseBody (s : Signal) : Recv → Completion × List Event
  | Recv.stop => (Completion.breaks, [])
  | Recv.sig x => (Completion.normal, (handler s x [none]).2)

/-- The `select` statement.  A `break` terminates the innermost `for`, `switch` or `select`
statement; here that is the `select` itself, which therefore completes normally. -/
def selectStmt (s : Signal) (r : Recv) : Completion × List Event :=
  match caseBody s r with
  | (Completion.breaks, ev) => (Completion.normal, ev)
  | (Completion.normal, ev) => (Completion.normal, ev)

/-- A goroutine started by `Run`. -/
inductive LoopState where
  /-- Waiting in its `select`. -/
  | running
  /-- Inside `s.handler` for good: in a handler body called inline that does not return, with
  the mutex held, or in `s.mtx.Lock()` waiting for a mutex that is never released. -/
  | blocked
  /-- Returned from its function. -/
  | exited
  deriving DecidableEq, Repr

/-- One iteration of `for { select { ... } }`.  The `for` has no condition: it ends only when
its body completes by `break`, and goes to the next iteration otherwise. -/
def loopIter (s : Signal) (r : Recv) : LoopState × List Event :=
  match selectStmt s r with
  | (Completion.breaks, ev) => (LoopState.exited, ev)
  | (Completion.normal, ev) => (LoopState.running, ev)

/-- A process using one `Signal` instance. -/
structure Proc where
  /-- The instance. -/
  s : Signal
  /-- The signals that `os/signal` currently relays to the channel `s.sig`. -/
  relay : SignalID → Bool
  /-- The goroutines started by `Run`, oldest first. -/
  loops : List LoopState
  /-- Events produced by the loops so far. -/
  out : List Event

/-- A process that has just called `NewSignal`. -/
def NewProc : Proc :=
  { s := NewSignal, relay := fun _ => false, loops := [], out := [] }

/-- Method `Listen`: `signal.Notify(s.sig, sig...)`.  Notify adds to the relayed set, and with no
signals given it relays all of them. -/
def Listen (p : Proc) (sigs : List SignalID) : Proc :=
  { p with relay := fun x => p.relay x || sigs.isEmpty || sigs.contains x }

/-- Method `Run`: one more goroutine, which enters its loop. -/
def Run (p : Proc) : Proc :=
  { p with loops := p.loops ++ [LoopState.running] }

/-- Loop number `i` takes `r` from a channel and runs one iteration to its end.  `none`: that
goroutine is not waiting in its `select`, so it cannot be the receiver. -/
def receive (p : Proc) (i : Nat) (r : Recv) : Option Proc :=
  match p.loops.get? i with
  | some LoopState.running =>
    some { p with loops := p.loops.set i (loopIter p.s r).1, out := p.out ++ (loopIter p.s r).2 }
  | _ => none

/-- Method `Stop`, with loop `i` as the receiver of the unbuffered send `s.stop <- struct{}{}`; then
`signal.Stop(s.sig)` ends all relaying.  `none`: the send does not complete with this
receiver. -/
def Stop (p : Proc) (i : Nat) : Option Proc :=
  match receive p i Recv.stop with
  | some q => some { q with relay := fun _ => false }
  | none => none

/-- Whether the mutex is held for good: some loop is inside `s.handler` and does not leave it
(`defer s.mtx.Unlock()` runs only when `s.handler` returns). -/
def mutexHeld (p : Proc) : Bool :=
  p.loops.any (fun l => l == LoopState.blocked)

/-- Loop number `i` takes a signal from `s.sig`, produces `ev` and does not come back from
`s.handler`.  `none`: that goroutine is not waiting in its `select`. -/
def stall (p : Proc) (i : Nat) (ev : List Event) : Option Proc :=
  match p.loops.get? i with
  | some LoopState.running =>
    some { p with loops := p.loops.set i LoopState.blocked, out := p.out ++ ev }
  | _ => none

/-- The operating system raises `x` and loop `i` is the one to receive it; `ret` tells whether
the handler body that dispatch calls returns.  A signal that is not relayed does not reach the
instance; a relayed one is dropped when no loop is receiving (`s.sig` is unbuffered and
`os/signal` does not block on it).  Otherwise loop `i` calls `s.handler(sig, nil)`: with the
mutex held for good it waits in `s.mtx.Lock()` and produces nothing; with a handler called
inline whose body does not return it produces the events of dispatch and stays in that body,
holding the mutex; in all other cases the iteration runs to its end. -/
def deliver (p : Proc) (i : Nat) (x : SignalID) (ret : Bool) : Option Proc :=
  if p.relay x = false then some p
  else if p.loops.all (fun l => l != LoopState.running) then some p
  else if mutexHeld p then stall p i []
  else if !ret && !(inlineCalls (handler p.s x [none]).2).isEmpty then
    stall p i (handler p.s x [none]).2
  else receive p i (Recv.sig x)

/-- A method whose body starts with `s.mtx.Lock()`: it completes, with result `q`, unless the
mutex is held for good. -/
def withLock (p q : Proc) : Option Proc :=
  if mutexHeld p then none else some q

/-- The public methods, and signal arrival, as steps of a process. -/
inductive Op where
  | setVerbose (b : Bool)
  | setConcurrent (b : Bool)
  | setDefaultHandler (h : Option HandlerRef)
  | register (sig : SignalID) (h : Option HandlerRef)
  | unregister (sig : SignalID)
  | setIgnore (sig : SignalID)
  | delIgnore (sig : SignalID)
  | disable
  | enable
  | listen (sigs : List SignalID)
  | run
  | stop (i : Nat)
  | deliver (i : Nat) (sig : SignalID) (ret : Bool)
  deriving DecidableEq, Repr

/-- One step.  `none`: the step cannot complete (a `Stop` whose send has no receiver, a method
waiting for the mutex for good, or a receiver that is not receiving). -/
def step (p : Proc) : Op → Option Proc
  | Op.setVerbose b => some { p with s := SetVerbose p.s b }
  | Op.setConcurrent b => some { p with s := SetConcurrent p.s b }
  | Op.setDefaultHandler h => some { p with s := SetDefaultHandler p.s h }
  | Op.register sig h => withLock p { p with s := RegisterSignalHandler p.s sig h }
  | Op.unregister sig => withLock p { p with s := UnregisterSignalHandler p.s sig }
  | Op.setIgnore sig => withLock p { p with s := SetIgnoreSignal p.s sig }
  | Op.delIgnore sig => withLock p { p with s := DelIgnoreSignal p.s sig }
  | Op.disable => withLock p { p with s := Disable p.s }
  | Op.enable => withLock p { p with s := Enable p.s }
  | Op.listen sigs => some (Listen p sigs)
  | Op.run => some (Run p)
  | Op.stop i => Stop p i
  | Op.deliver i sig ret => deliver p i sig ret

/-- A sequence of steps, each completing before the next starts. -/
def exec (p : Proc) : List Op → Option Proc
  | [] => some p
  | o :: os =>
    match step p o with
    | some q => exec q os
    | none => none

/-- Every goroutine started by `Run` is waiting in its `select`. -/
def AllRunning (p : Proc) : Prop := ∀ l ∈ p.loops, l = LoopState.running

/-- No goroutine started by `Run` has returned. -/
def NoExit (p : Proc) : Prop := ∀ l ∈ p.loops, l ≠ LoopState.exited

/-- Constant `syscall.SIGINT`. -/
def SIGINT : SignalID := 2

/-- Constant `syscall.SIGTERM`. -/
def SIGTERM : SignalID := 15

/-! ## Method bodies at the level of the mutex (`signal.go` lines 37-95) -/

/-- The fields of `Signal` that dispatch reads. -/
inductive Field where
  | defaultHandler
  | set
  | ignore
  | enable
  | tips
  | goroutine
  deriving DecidableEq, Repr

/-- A statement of a method body: a mutex call, or a write to a field (an assignment, a map
write or a map removal) with its effect on the state. -/
inductive Stmt where
  /-- Call `s.mtx.Lock()`. -/
  | lock
  /-- Call `s.mtx.Unlock()`. -/
  | unlock
  /-- A write to field `f`. -/
  | write (f : Field) (upd : Signal → Signal)

/-- The statements of each public method, in source order.  `Listen`, `Run` and `Stop` touch
the channels only; signal arrival is not a method. -/
def body : Op → List Stmt
  | Op.setVerbose b => [Stmt.write Field.tips (fun s => { s with tips := b })]
  | Op.setConcurrent b => [Stmt.write Field.goroutine (fun s => { s with goroutine := b })]
  | Op.setDefaultHandler h =>
    [Stmt.write Field.defaultHandler (fun s => { s with defaultHandler := h })]
  | Op.register sig h =>
    [Stmt.lock, Stmt.write Field.set (fun s => { s with set := mapSet s.set sig h }), Stmt.unlock]
  | Op.unregister sig =>
    [Stmt.lock, Stmt.write Field.set (fun s => { s with set := mapDelete s.set sig }), Stmt.unlock]
  | Op.setIgnore sig =>
    [Stmt.lock, Stmt.write Field.ignore (fun s => { s with ignore := mapSet s.ignore sig true }),
      Stmt.unlock]
  | Op.delIgnore sig =>
    [Stmt.lock, Stmt.write Field.ignore (fun s => { s with ignore := mapDelete s.ignore sig }),
      Stmt.unlock]
  | Op.disable => [Stmt.lock, Stmt.write Field.enable (fun s => { s with enable := false }),
      Stmt.unlock]
  | Op.enable => [Stmt.lock, Stmt.write Field.enable (fun s => { s with enable := true }),
      Stmt.unlock]
  | Op.listen _ => []
  | Op.run => []
  | Op.stop _ => []
  | Op.deliver _ _ _ => []

/-- The state after the statements of a body have run, one after the other. -/
def runBody (s : Signal) : List Stmt → Signal
  | [] => s
  | Stmt.lock :: r => runBody s r
  | Stmt.unlock :: r => runBody s r
  | Stmt.write _ upd :: r => runBody (upd s) r

/-- The fields that a body writes at a point where it does not hold the mutex; `held` tells
whether the mutex is held on entry. -/
def unguardedFrom (held : Bool) : List Stmt → List Field
  | [] => []
  | Stmt.lock :: r => unguardedFrom true r
  | Stmt.unlock :: r => unguardedFrom false r
  | Stmt.write f _ :: r => if held then unguardedFrom held r else f :: unguardedFrom held r

/-- The fields that a public method writes without holding the mutex. -/
def unguarded (o : Op) : List Field := unguardedFrom false (body o)

/-! ## Dispatch: basic facts -/

theorem invocations_verbosef (s : Signal) (sig : SignalID) (state : String)
    (ptr : Option (Option HandlerRef)) : invocations (verbosef s sig state ptr) = [] := by
  unfold verbosef
  cases s.tips <;> simp [invocations]

theorem invocations_verbosef_invoke (s : Signal) (sig : SignalID) (state : String)
    (ptr : Option (Option HandlerRef)) (h : HandlerRef) (args : List Arg) :
    invocations (verbosef s sig state ptr ++ [invoke s h sig args]) = [⟨h, sig, args⟩] := by
  unfold verbosef invoke
  cases s.tips <;> cases s.goroutine <;> simp [invocations]

/-! ## Dispatch: resolution order -/

/-- C1. Ignore dominates everything: when the signal is a key of the ignore map, dispatch makes
no handler invocation, whatever the registration table holds for it and whether or not a default
handler is installed; the return point is the disabled one or the ignored one. -/
theorem ignore_dominates (st : Signal) (s : SignalID) (args : List Arg)
    (hig : (st.ignore s).isSome = true) :
    invocations (handler st s args).2 = [] ∧
      ((handler st s args).1 = Outcome.disabled ∨ (handler st s args).1 = Outcome.ignored) := by
  unfold handler
  cases hen : st.enable <;> simp [hig, invocations_verbosef]

theorem ignore_dominates_witness :
    ((SetIgnoreSignal (RegisterSignalHandler (SetDefaultHandler NewSignal (some 7)) SIGINT
        (some 5)) SIGINT).ignore SIGINT).isSome = true ∧
      (invocations (handler (SetIgnoreSignal (RegisterSignalHandler
          (SetDefaultHandler NewSignal (some 7)) SIGINT (some 5)) SIGINT) SIGINT [none]).2 = [] ∧
        ((handler (SetIgnoreSignal (RegisterSignalHandler
            (SetDefaultHandler NewSignal (some 7)) SIGINT (some 5)) SIGINT) SIGINT [none]).1
            = Outcome.disabled ∨
          (handler (SetIgnoreSignal (RegisterSignalHandler
            (SetDefaultHandler NewSignal (some 7)) SIGINT (some 5)) SIGINT) SIGINT [none]).1
            = Outcome.ignored)) :=
  ⟨by decide, ignore_dominates _ SIGINT [none] (by decide)⟩

/-- C2. Explicit-empty registration suppresses the default: with `enable` set and the signal not
ignored, a table entry holding the nil handler makes dispatch return at the
registered-but-unset point with no invocation at all, whatever default handler is installed;
and `RegisterSignalHandler st s nil` produces such an entry whatever the table held for `s`
before. -/
theorem nil_registration_suppresses_default (st : Signal) (s : SignalID) (args : List Arg)
    (hen : st.enable = true) (hig : st.ignore s = none) :
    (st.set s = some none →
        (handler st s args).1 = Outcome.registeredUnset ∧
          invocations (handler st s args).2 = []) ∧
      (RegisterSignalHandler st s none).set s = some none ∧
      (handler (RegisterSignalHandler st s none) s args).1 = Outcome.registeredUnset ∧
      invocations (handler (RegisterSignalHandler st s none) s args).2 = [] := by
  refine ⟨?_, ?_, ?_, ?_⟩
  · intro hset
    unfold handler
    simp [hen, hig, hset, invocations_verbosef]
  · simp [RegisterSignalHandler, mapSet]
  · unfold handler
    simp [RegisterSignalHandler, mapSet, hen, hig]
  · unfold handler
    simp [RegisterSignalHandler, mapSet, hen, hig]
    exact invocations_verbosef _ _ _ _

theorem nil_registration_suppresses_default_witness :
    (SetDefaultHandler (RegisterSignalHandler NewSignal SIGINT (some 5)) (some 7)).enable = true ∧
      (SetDefaultHandler (RegisterSignalHandler NewSignal SIGINT (some 5)) (some 7)).ignore SIGINT
        = none ∧
      (handler (RegisterSignalHandler
          (SetDefaultHandler (RegisterSignalHandler NewSignal SIGINT (some 5)) (some 7))
          SIGINT none) SIGINT [none]).1 = Outcome.registeredUnset ∧
      invocations (handler (RegisterSignalHandler
          (SetDefaultHandler (RegisterSignalHandler NewSignal SIGINT (some 5)) (some 7))
          SIGINT none) SIGINT [none]).2 = [] :=
  ⟨rfl, rfl,
    (nil_registration_suppresses_default
      (SetDefaultHandler (RegisterSignalHandler NewSignal SIGINT (some 5)) (some 7))
      SIGINT [none] rfl rfl).2.2⟩

/-- C3. Default fall-through: with `enable` set and a non-nil default handler `D`, a signal that
is neither a key of the ignore map nor a key of the registration table is dispatched to exactly
one invocation, of `D`, with the signal as first argument and the arguments passed on. -/
theorem default_fall_through (st : Signal) (D : HandlerRef) (s : SignalID) (args : List Arg)
    (hen : st.enable = true) (hd : st.defaultHandler = some D) (hig : st.ignore s = none)
    (hset : st.set s = none) :
    (handler st s args).1 = Outcome.defaultInvoked ∧
      invocations (handler st s args).2 = [⟨D, s, args⟩] := by
  unfold handler
  simp [hen, hd, hig, hset, invocations_verbosef_invoke]

theorem default_fall_through_witness :
    (handler (SetDefaultHandler NewSignal (some 7)) SIGINT [none]).1 = Outcome.defaultInvoked ∧
      invocations (handler (SetDefaultHandler NewSignal (some 7)) SIGINT [none]).2
        = [⟨7, SIGINT, [none]⟩] :=
  default_fall_through (SetDefaultHandler NewSignal (some 7)) 7 SIGINT [none] rfl rfl rfl rfl

/-- C4. Registered handler wins over the default: with `enable` set, a signal that is not
ignored and whose table entry is the non-nil handler `H` is dispatched to exactly one
invocation, of `H`, with the signal as first argument; the return point is the one of the
table branch, and no invocation of a default handler different from `H` is made. -/
theorem registered_handler_wins (st : Signal) (H : HandlerRef) (s : SignalID) (args : List Arg)
    (hen : st.enable = true) (hig : st.ignore s = none) (hset : st.set s = some (some H)) :
    (handler st s args).1 = Outcome.handlerInvoked ∧
      invocations (handler st s args).2 = [⟨H, s, args⟩] ∧
      ∀ D, st.defaultHandler = some D → D ≠ H →
        ∀ i ∈ invocations (handler st s args).2, i.h ≠ D := by
  have hinv : invocations (handler st s args).2 = [⟨H, s, args⟩] := by
    unfold handler
    simp [hen, hig, hset, invocations_verbosef_invoke]
  refine ⟨?_, hinv, ?_⟩
  · unfold handler
    simp [hen, hig, hset]
  · intro D _ hne i hi
    rw [hinv] at hi
    simp at hi
    subst hi
    exact fun h => hne h.symm

theorem registered_handler_wins_witness :
    (handler (RegisterSignalHandler (SetDefaultHandler NewSignal (some 7)) SIGINT (some 5))
        SIGINT [none]).1 = Outcome.handlerInvoked ∧
      invocations (handler (RegisterSignalHandler (SetDefaultHandler NewSignal (some 7)) SIGINT
        (some 5)) SIGINT [none]).2 = [⟨5, SIGINT, [none]⟩] ∧
      ∀ D, (RegisterSignalHandler (SetDefaultHandler NewSignal (some 7)) SIGINT
          (some 5)).defaultHandler = some D → D ≠ 5 →
        ∀ i ∈ invocations (handler (RegisterSignalHandler (SetDefaultHandler NewSignal (some 7))
          SIGINT (some 5)) SIGINT [none]).2, i.h ≠ D :=
  registered_handler_wins (RegisterSignalHandler (SetDefaultHandler NewSignal (some 7)) SIGINT
    (some 5)) 5 SIGINT [none] rfl rfl rfl

/-- C5. Global kill switch: after `Disable`, dispatch of any signal returns at the disabled
point; its whole result is fixed by the signal and the `tips` flag alone (the ignore map, the
table and the default handler play no part), and it contains no handler invocation. -/
theorem disable_kills_dispatch (st : Signal) (s : SignalID) (args : List Arg) :
    (Disable st).enable = false ∧
      handler (Disable st) s args
        = (Outcome.disabled,
            if st.tips then [Event.print s "disable handlers" none] else []) ∧
      invocations (handler (Disable st) s args).2 = [] := by
  have h : handler (Disable st) s args
      = (Outcome.disabled, if st.tips then [Event.print s "disable handlers" none] else []) := by
    unfold handler verbosef Disable
    cases st.tips <;> simp
  refine ⟨rfl, h, ?_⟩
  rw [h]
  cases st.tips <;> simp [invocations]

/-- C6. Enable undoes Disable: from a state with `enable` set, `Disable` followed by `Enable`
gives back the same state, so every later dispatch resolves as it did before `Disable`. -/
theorem enable_undoes_disable (st : Signal) (hen : st.enable = true) :
    Enable (Disable st) = st ∧
      ∀ (s : SignalID) (args : List Arg),
        handler (Enable (Disable st)) s args = handler st s args := by
  have h : Enable (Disable st) = st := by
    cases st
    simp only [Enable, Disable] at *
    simp [hen]
  exact ⟨h, fun s args => by rw [h]⟩

theorem enable_undoes_disable_witness :
    (RegisterSignalHandler NewSignal SIGTERM (some 5)).enable = true ∧
      (Enable (Disable (RegisterSignalHandler NewSignal SIGTERM (some 5)))
          = RegisterSignalHandler NewSignal SIGTERM (some 5) ∧
        ∀ (s : SignalID) (args : List Arg),
          handler (Enable (Disable (RegisterSignalHandler NewSignal SIGTERM (some 5)))) s args
            = handler (RegisterSignalHandler NewSignal SIGTERM (some 5)) s args) :=
  ⟨rfl, enable_undoes_disable (RegisterSignalHandler NewSignal SIGTERM (some 5)) rfl⟩

/-- C10. Dispatch is total and single-outcome: for every state and signal `handler` returns, at
the return point fixed by the first matching rule in the order `enable` flag, ignore map,
registration table, default handler (each of the six return points is reached exactly under its
own condition, and the six conditions exclude one another), and it makes at most one handler
invocation: one at the handler and default points, none at the other four. -/
theorem dispatch_total_single_outcome (st : Signal) (s : SignalID) (args : List Arg) :
    ((handler st s args).1 = Outcome.disabled ↔ st.enable = false) ∧
      ((handler st s args).1 = Outcome.ignored ↔
        st.enable = true ∧ (st.ignore s).isSome = true) ∧
      ((handler st s args).1 = Outcome.handlerInvoked ↔
        st.enable = true ∧ st.ignore s = none ∧ ∃ h, st.set s = some (some h)) ∧
      ((handler st s args).1 = Outcome.registeredUnset ↔
        st.enable = true ∧ st.ignore s = none ∧ st.set s = some none) ∧
      ((handler st s args).1 = Outcome.defaultInvoked ↔
        st.enable = true ∧ st.ignore s = none ∧ st.set s = none ∧
          st.defaultHandler.isSome = true) ∧
      ((handler st s args).1 = Outcome.unhandled ↔
        st.enable = true ∧ st.ignore s = none ∧ st.set s = none ∧ st.defaultHandler = none) ∧
      (invocations (handler st s args).2).length ≤ 1 ∧
      ((invocations (handler st s args).2).length = 1 ↔
        ((handler st s args).1 = Outcome.handlerInvoked ∨
          (handler st s args).1 = Outcome.defaultInvoked)) := by
  unfold handler
  cases hen : st.enable
  · simp [invocations_verbosef]
  · cases hig : st.ignore s with
    | some b => simp [invocations_verbosef]
    | none =>
      cases hset : st.set s with
      | some e =>
        cases e with
        | some h => simp [invocations_verbosef_invoke]
        | none => simp [invocations_verbosef]
      | none =>
        cases hd : st.defaultHandler with
        | some d => simp [invocations_verbosef_invoke]
        | none => simp [invocations_verbosef]

/-! ## Delivery loop: basic facts -/

theorem loopIter_fst (s : Signal) (r : Recv) : (loopIter s r).1 = LoopState.running := by
  cases r <;> simp [loopIter, selectStmt, caseBody]

theorem receive_loops (p q : Proc) (i : Nat) (r : Recv) (h : receive p i r = some q) :
    q.loops = p.loops.set i LoopState.running ∧ q.relay = p.relay ∧ q.s = p.s := by
  unfold receive at h
  split at h
  · simp only [Option.some.injEq] at h
    subst h
    simp [loopIter_fst]
  · simp at h

theorem receive_isSome (p : Proc) (i : Nat) (r : Recv)
    (h : p.loops.get? i = some LoopState.running) : (receive p i r).isSome = true := by
  unfold receive
  rw [h]
  rfl

theorem Stop_relay (p q : Proc) (i : Nat) (h : Stop p i = some q) :
    (∀ x, q.relay x = false) ∧ q.loops = p.loops.set i LoopState.running := by
  unfold Stop at h
  cases hr : receive p i Recv.stop with
  | none => simp [hr] at h
  | some m =>
    simp only [hr, Option.some.injEq] at h
    subst h
    exact ⟨fun _ => rfl, (receive_loops p m i Recv.stop hr).1⟩

theorem withLock_some (p q r : Proc) (h : withLock p q = some r) : r = q := by
  unfold withLock at h
  split at h
  · cases h
  · exact (Option.some.inj h).symm

theorem stall_loops (p q : Proc) (i : Nat) (ev : List Event) (h : stall p i ev = some q) :
    q.loops = p.loops.set i LoopState.blocked ∧ q.relay = p.relay ∧ q.s = p.s := by
  unfold stall at h
  split at h
  · simp only [Option.some.injEq] at h
    subst h
    exact ⟨rfl, rfl, rfl⟩
  · simp at h

theorem mutexHeld_iff (p : Proc) : mutexHeld p = true ↔ LoopState.blocked ∈ p.loops := by
  unfold mutexHeld
  rw [List.any_eq_true]
  constructor
  · rintro ⟨l, hl, hb⟩
    have e : l = LoopState.blocked := by simpa using hb
    rw [← e]
    exact hl
  · intro h
    exact ⟨LoopState.blocked, h, by simp⟩

theorem deliver_cases (p q : Proc) (i : Nat) (x : SignalID) (ret : Bool)
    (h : deliver p i x ret = some q) :
    q = p ∨ receive p i (Recv.sig x) = some q ∨
      ∃ ev, stall p i ev = some q ∧ (LoopState.blocked ∈ p.loops ∨ ret = false) := by
  unfold deliver at h
  split at h
  · exact Or.inl (Option.some.inj h).symm
  · split at h
    · exact Or.inl (Option.some.inj h).symm
    · split at h
      · rename_i hm
        exact Or.inr (Or.inr ⟨[], h, Or.inl ((mutexHeld_iff p).mp hm)⟩)
      · split at h
        · rename_i hc
          refine Or.inr (Or.inr ⟨_, h, Or.inr ?_⟩)
          cases ret
          · rfl
          · simp at hc
        · exact Or.inr (Or.inl h)

theorem step_loops (p q : Proc) (o : Op) (h : step p o = some q) :
    (o = Op.run ∧ q.loops = p.loops ++ [LoopState.running]) ∨
      (o ≠ Op.run ∧
        (q.loops = p.loops ∨ (∃ i, q.loops = p.loops.set i LoopState.running) ∨
          ∃ i, q.loops = p.loops.set i LoopState.blocked ∧
            (LoopState.blocked ∈ p.loops ∨ ∃ x, o = Op.deliver i x false))) := by
  cases o with
  | run =>
    simp only [step, Option.some.injEq] at h
    subst h
    exact Or.inl ⟨rfl, rfl⟩
  | stop i =>
    exact Or.inr ⟨by simp, Or.inr (Or.inl ⟨i, (Stop_relay p q i h).2⟩)⟩
  | deliver i x ret =>
    refine Or.inr ⟨by simp, ?_⟩
    rcases deliver_cases p q i x ret h with h1 | h1 | ⟨ev, h1, h2⟩
    · exact Or.inl (by rw [h1])
    · exact Or.inr (Or.inl ⟨i, (receive_loops p q i (Recv.sig x) h1).1⟩)
    · refine Or.inr (Or.inr ⟨i, (stall_loops p q i ev h1).1, ?_⟩)
      rcases h2 with h2 | h2
      · exact Or.inl h2
      · exact Or.inr ⟨x, by rw [h2]⟩
  | _ =>
    refine Or.inr ⟨by simp, Or.inl ?_⟩
    first
      | (simp only [step, Option.some.injEq] at h
         subst h
         rfl)
      | (simp only [step] at h
         rw [withLock_some _ _ _ h])

theorem step_loops_inv (p q : Proc) (o : Op) (h : step p o = some q) :
    (NoExit p → NoExit q) ∧ p.loops.length ≤ q.loops.length ∧
      (o = Op.run → 0 < q.loops.length) ∧
      (LoopState.blocked ∈ q.loops →
        LoopState.blocked ∈ p.loops ∨ ∃ i x, o = Op.deliver i x false) := by
  rcases step_loops p q o h with ⟨ho, hl⟩ | ⟨ho, hl | ⟨i, hl⟩ | ⟨i, hl, hb⟩⟩
  · refine ⟨?_, by simp [hl], fun _ => by simp [hl], ?_⟩
    · intro hp l hmem
      rw [hl] at hmem
      simp only [List.mem_append, List.mem_singleton] at hmem
      rcases hmem with hmem | hmem
      · exact hp l hmem
      · rw [hmem]
        decide
    · intro hmem
      rw [hl] at hmem
      simp only [List.mem_append, List.mem_singleton] at hmem
      rcases hmem with hmem | hmem
      · exact Or.inl hmem
      · cases hmem
  · refine ⟨?_, by simp [hl], fun e => absurd e ho, ?_⟩
    · intro hp l hmem
      rw [hl] at hmem
      exact hp l hmem
    · intro hmem
      rw [hl] at hmem
      exact Or.inl hmem
  · refine ⟨?_, by simp [hl], fun e => absurd e ho, ?_⟩
    · intro hp l hmem
      rw [hl] at hmem
      rcases List.mem_or_eq_of_mem_set hmem with hmem | hmem
      · exact hp l hmem
      · rw [hmem]
        decide
    · intro hmem
      rw [hl] at hmem
      rcases List.mem_or_eq_of_mem_set hmem with hmem | hmem
      · exact Or.inl hmem
      · cases hmem
  · refine ⟨?_, by simp [hl], fun e => absurd e ho, ?_⟩
    · intro hp l hmem
      rw [hl] at hmem
      rcases List.mem_or_eq_of_mem_set hmem with hmem | hmem
      · exact hp l hmem
      · rw [hmem]
        decide
    · intro _
      rcases hb with hb | ⟨x, hb⟩
      · exact Or.inl hb
      · exact Or.inr ⟨i, x, hb⟩

theorem exec_loops_inv (ops : List Op) :
    ∀ (p q : Proc), exec p ops = some q →
      (NoExit p → NoExit q) ∧ p.loops.length ≤ q.loops.length ∧
        (Op.run ∈ ops → 0 < q.loops.length) ∧
        (LoopState.blocked ∈ q.loops →
          LoopState.blocked ∈ p.loops ∨ ∃ i x, Op.deliver i x false ∈ ops) := by
  induction ops with
  | nil =>
    intro p q h
    simp only [exec, Option.some.injEq] at h
    subst h
    exact ⟨id, le_refl _, fun hm => by simp at hm, fun hb => Or.inl hb⟩
  | cons o os ih =>
    intro p q h
    simp only [exec] at h
    cases hs : step p o with
    | none => simp [hs] at h
    | some m =>
      simp only [hs] at h
      obtain ⟨hne, hlen, hrun, hblk⟩ := step_loops_inv p m o hs
      obtain ⟨hne2, hlen2, hrun2, hblk2⟩ := ih m q h
      refine ⟨fun hp => hne2 (hne hp), le_trans hlen hlen2, ?_, ?_⟩
      · intro hmem
        rcases List.mem_cons.mp hmem with ho | ho
        · exact lt_of_lt_of_le (hrun ho.symm) hlen2
        · exact hrun2 ho
      · intro hb
        rcases hblk2 hb with hb2 | ⟨i, x, hmem⟩
        · rcases hblk hb2 with hb3 | ⟨i, x, ho⟩
          · exact Or.inl hb3
          · exact Or.inr ⟨i, x, by rw [ho]; exact List.mem_cons_self _ _⟩
        · exact Or.inr ⟨i, x, List.mem_cons_of_mem _ hmem⟩

theorem allRunning_of_noExit (p : Proc) (hne : NoExit p)
    (hb : LoopState.blocked ∉ p.loops) : AllRunning p := by
  intro l hl
  cases l with
  | running => rfl
  | blocked => exact absurd hl hb
  | exited => exact absurd rfl (hne _ hl)

theorem Stop_isSome_of_allRunning (p : Proc) (hp : AllRunning p) (i : Nat)
    (hi : i < p.loops.length) : (Stop p i).isSome = true := by
  have hget : p.loops.get? i = some LoopState.running := by
    rw [List.get?_eq_get hi]
    exact congrArg some (hp _ (List.get_mem _ _ _))
  have hr := receive_isSome p i Recv.stop hget
  unfold Stop
  cases h : receive p i Recv.stop with
  | none => simp [h] at hr
  | some q => rfl

/-! ## Delivery loop: lifecycle -/

/-- C7. The stop case does not end the loop: for every state, the iteration that receives from
the stop channel leaves the goroutine running with no event, and after `Run` then `Stop` on a
fresh instance the one loop is still running and `Stop` can be served again. -/
theorem stop_case_keeps_loop_running :
    (∀ st : Signal, loopIter st Recv.stop = (LoopState.running, [])) ∧
      (exec NewProc [Op.run, Op.stop 0]).map (fun p => p.loops) = some [LoopState.running] ∧
      (exec NewProc [Op.run, Op.stop 0, Op.stop 0]).map (fun p => p.loops)
        = some [LoopState.running] :=
  ⟨fun _ => rfl, rfl, rfl⟩

/-- C8, as stated, fails: after `Listen` with no arguments and two `Run` calls, whichever loop
serves the first `Stop`, it is not the case that exactly one loop has exited while `SIGINT` is
still relayed to the instance. -/
theorem two_loop_first_stop_counterexample :
    ¬ ∃ (i : Nat) (p : Proc),
        exec NewProc [Op.listen [], Op.run, Op.run, Op.stop i] = some p ∧
          p.loops.count LoopState.exited = 1 ∧ p.relay SIGINT = true := by
  rintro ⟨i, p, hp, _, hrelay⟩
  simp only [exec, step] at hp
  cases hs : Stop (Run (Run (Listen NewProc []))) i with
  | none => simp [hs] at hp
  | some q =>
    simp only [hs, Option.some.injEq] at hp
    subst hp
    rw [(Stop_relay _ _ i hs).1 SIGINT] at hrelay
    cases hrelay

/-- C8, amended. Two-loop shutdown scenario: after two `Run` calls, the first `Stop` already
cancels the subscription, so from then on no signal is relayed and an arriving signal reaches
neither loop; the second `Stop` leaves the subscription cancelled. -/
theorem two_loop_stop_cancels_subscription (p0 p1 p2 : Proc) (i j : Nat)
    (h1 : exec p0 [Op.run, Op.run, Op.stop i] = some p1)
    (h2 : step p1 (Op.stop j) = some p2) :
    (∀ x, p1.relay x = false) ∧ (∀ k x r, deliver p1 k x r = some p1) ∧
      (∀ x, p2.relay x = false) := by
  simp only [exec, step] at h1 h2
  cases hs : Stop (Run (Run p0)) i with
  | none => simp [hs] at h1
  | some q =>
    simp only [hs, Option.some.injEq] at h1
    subst h1
    have hq := (Stop_relay _ _ i hs).1
    refine ⟨hq, ?_, (Stop_relay _ _ j h2).1⟩
    intro k x r
    simp [deliver, hq x]

theorem two_loop_stop_cancels_subscription_witness :
    ∃ p1 p2 : Proc,
      exec (Listen NewProc []) [Op.run, Op.run, Op.stop 0] = some p1 ∧
        step p1 (Op.stop 1) = some p2 ∧
        ((∀ x, p1.relay x = false) ∧ (∀ k x r, deliver p1 k x r = some p1) ∧
          (∀ x, p2.relay x = false)) :=
  ⟨_, _, rfl, rfl, two_loop_stop_cancels_subscription (Listen NewProc []) _ _ 0 1 rfl rfl⟩

/-- C9, as stated, fails: on a fresh instance, after registering a handler for `SIGINT`,
`Listen`, one `Run` and the arrival of `SIGINT` dispatched inline to a handler body that does
not return, a loop has been started and yet `Stop` completes with no receiver at all. -/
theorem stop_blocks_behind_inline_handler :
    ∃ p : Proc,
      exec NewProc [Op.register SIGINT (some 5), Op.setVerbose false, Op.listen [SIGINT], Op.run,
          Op.deliver 0 SIGINT false] = some p ∧
        0 < p.loops.length ∧ ∀ i, (Stop p i).isSome = false :=
  ⟨_, rfl, by decide, fun i => by cases i <;> rfl⟩

/-- C9, amended. Stop returns whenever a loop has been started and no loop is held inside
dispatch: in every state reached from a fresh instance by steps among which there is a `Run`,
if every signal arrival so far met handler bodies that return, or, more generally, if no loop is
blocked inside `s.handler`, then at least one loop exists and `Stop` completes with any of the
started loops as receiver, however many `Stop` calls came before; and on a fresh instance two
`Run` calls followed by three `Stop` calls all complete, whichever loops serve them. -/
theorem stop_completes_after_run (ops : List Op) (p : Proc)
    (hex : exec NewProc ops = some p) (hrun : Op.run ∈ ops)
    (hfree : (∀ i x, Op.deliver i x false ∉ ops) ∨ LoopState.blocked ∉ p.loops) :
    0 < p.loops.length ∧ (∀ i, i < p.loops.length → (Stop p i).isSome = true) ∧
      (∀ i j k, i < 2 → j < 2 → k < 2 →
        (exec NewProc [Op.run, Op.run, Op.stop i, Op.stop j, Op.stop k]).isSome = true) := by
  obtain ⟨hne, _, hpos, hblk⟩ := exec_loops_inv ops NewProc p hex
  have hnew : NoExit NewProc := by
    intro l hl
    simp [NewProc] at hl
  have hnb : LoopState.blocked ∉ p.loops := by
    rcases hfree with hret | hnb
    · intro hb
      rcases hblk hb with hb0 | ⟨i, x, hmem⟩
      · simp [NewProc] at hb0
      · exact hret i x hmem
    · exact hnb
  have hall : AllRunning p := allRunning_of_noExit p (hne hnew) hnb
  refine ⟨hpos hrun, fun i hi => Stop_isSome_of_allRunning p hall i hi, ?_⟩
  intro i j k hi hj hk
  interval_cases i <;> interval_cases j <;> interval_cases k <;> rfl

theorem stop_completes_after_run_witness :
    ∃ p : Proc,
      exec NewProc [Op.register SIGINT (some 5), Op.listen [SIGINT], Op.run,
          Op.deliver 0 SIGINT true, Op.stop 0, Op.stop 0] = some p ∧
        (0 < p.loops.length ∧ (∀ i, i < p.loops.length → (Stop p i).isSome = true) ∧
          (∀ i j k, i < 2 → j < 2 → k < 2 →
            (exec NewProc [Op.run, Op.run, Op.stop i, Op.stop j, Op.stop k]).isSome = true)) :=
  ⟨_, rfl,
    stop_completes_after_run [Op.register SIGINT (some 5), Op.listen [SIGINT], Op.run,
      Op.deliver 0 SIGINT true, Op.stop 0, Op.stop 0] _ rfl (by simp)
      (Or.inl (fun i x h => by simp at h))⟩

/-! ## Registration table and ignore map -/

theorem mapSet_mapSet {V : Type} (m : SignalID → Option V) (k : SignalID) (v w : V) :
    mapSet (mapSet m k v) k w = mapSet m k w := by
  funext x
  unfold mapSet
  by_cases hx : x = k <;> simp [hx]

theorem mapDelete_absent {V : Type} (m : SignalID → Option V) (k : SignalID) (h : m k = none) :
    mapDelete m k = m := by
  funext x
  unfold mapDelete
  by_cases hx : x = k
  · simp [hx, h]
  · simp [hx]

theorem mapDelete_mapSet {V : Type} (m : SignalID → Option V) (k : SignalID) (v : V)
    (h : m k = none) : mapDelete (mapSet m k v) k = m := by
  funext x
  unfold mapDelete mapSet
  by_cases hx : x = k
  · simp [hx, h]
  · simp [hx]

/-- C11. Re-registration overwrites: `RegisterSignalHandler st s H1` followed by
`RegisterSignalHandler s H2` gives the same state as `RegisterSignalHandler st s H2` alone, for
nil and non-nil handlers alike; and when `H2` is the non-nil handler `h2`, `enable` is set and
`s` is not ignored, dispatch of `s` makes exactly one invocation, of `h2`, so a different `H1`
is not run. -/
theorem reregistration_overwrites (st : Signal) (s : SignalID) (H1 H2 : Option HandlerRef) :
    RegisterSignalHandler (RegisterSignalHandler st s H1) s H2 = RegisterSignalHandler st s H2 ∧
      ∀ (h2 : HandlerRef) (args : List Arg), H2 = some h2 → st.enable = true →
        st.ignore s = none →
        invocations (handler (RegisterSignalHandler (RegisterSignalHandler st s H1) s H2)
            s args).2 = [⟨h2, s, args⟩] ∧
          ∀ h1, H1 = some h1 → h1 ≠ h2 →
            ∀ i ∈ invocations (handler (RegisterSignalHandler (RegisterSignalHandler st s H1)
              s H2) s args).2, i.h ≠ h1 := by
  have heq : RegisterSignalHandler (RegisterSignalHandler st s H1) s H2
      = RegisterSignalHandler st s H2 := by
    simp [RegisterSignalHandler, mapSet_mapSet]
  refine ⟨heq, ?_⟩
  intro h2 args hH2 hen hig
  have hinv : invocations (handler (RegisterSignalHandler st s H2) s args).2
      = [⟨h2, s, args⟩] := by
    unfold handler
    simp [RegisterSignalHandler, mapSet, hen, hig, hH2, invocations_verbosef_invoke]
  rw [heq, hinv]
  refine ⟨rfl, ?_⟩
  intro h1 _ hne i hi
  simp at hi
  subst hi
  exact fun h => hne h.symm

theorem reregistration_overwrites_witness :
    RegisterSignalHandler (RegisterSignalHandler NewSignal SIGINT (some 1)) SIGINT (some 2)
        = RegisterSignalHandler NewSignal SIGINT (some 2) ∧
      invocations (handler (RegisterSignalHandler (RegisterSignalHandler NewSignal SIGINT
        (some 1)) SIGINT (some 2)) SIGINT [none]).2 = [⟨2, SIGINT, [none]⟩] :=
  ⟨(reregistration_overwrites NewSignal SIGINT (some 1) (some 2)).1,
    ((reregistration_overwrites NewSignal SIGINT (some 1) (some 2)).2 2 [none] rfl rfl rfl).1⟩

/-- C12. Removal of an absent key is a no-op: `UnregisterSignalHandler` of a signal with no
table entry returns the state it was given, and so does `DelIgnoreSignal` of a signal that is
not in the ignore map; both are total. -/
theorem removal_of_absent_key (st : Signal) (s : SignalID) :
    (st.set s = none → UnregisterSignalHandler st s = st) ∧
      (st.ignore s = none → DelIgnoreSignal st s = st) := by
  constructor
  · intro h
    cases st
    simp only [UnregisterSignalHandler] at *
    simp [mapDelete_absent _ _ h]
  · intro h
    cases st
    simp only [DelIgnoreSignal] at *
    simp [mapDelete_absent _ _ h]

theorem removal_of_absent_key_witness :
    UnregisterSignalHandler (RegisterSignalHandler NewSignal SIGTERM (some 5)) SIGINT
        = RegisterSignalHandler NewSignal SIGTERM (some 5) ∧
      DelIgnoreSignal (SetIgnoreSignal NewSignal SIGTERM) SIGINT
        = SetIgnoreSignal NewSignal SIGTERM :=
  ⟨(removal_of_absent_key (RegisterSignalHandler NewSignal SIGTERM (some 5)) SIGINT).1
      (by decide),
    (removal_of_absent_key (SetIgnoreSignal NewSignal SIGTERM) SIGINT).2 (by decide)⟩

/-- C13. Ignore round trip: from a state in which `s` is not in the ignore map,
`SetIgnoreSignal s` followed by `DelIgnoreSignal s` gives back the same state, so every signal
is dispatched afterwards as it was before; in between, dispatch of `s` makes no invocation. -/
theorem ignore_round_trip (st : Signal) (s : SignalID) (hig : st.ignore s = none) :
    DelIgnoreSignal (SetIgnoreSignal st s) s = st ∧
      (∀ (x : SignalID) (args : List Arg),
        handler (DelIgnoreSignal (SetIgnoreSignal st s) s) x args = handler st x args) ∧
      ∀ args : List Arg, invocations (handler (SetIgnoreSignal st s) s args).2 = [] := by
  have h : DelIgnoreSignal (SetIgnoreSignal st s) s = st := by
    cases st
    simp only [DelIgnoreSignal, SetIgnoreSignal] at *
    simp [mapDelete_mapSet _ _ _ hig]
  refine ⟨h, fun x args => by rw [h], ?_⟩
  intro args
  unfold handler
  cases hen : st.enable <;>
    simp [SetIgnoreSignal, mapSet, hen, verbosef, invocations_verbosef] <;>
    cases st.tips <;> simp [invocations]

theorem ignore_round_trip_witness :
    (SetDefaultHandler NewSignal (some 7)).ignore SIGINT = none ∧
      DelIgnoreSignal (SetIgnoreSignal (SetDefaultHandler NewSignal (some 7)) SIGINT) SIGINT
        = SetDefaultHandler NewSignal (some 7) ∧
      invocations (handler (SetIgnoreSignal (SetDefaultHandler NewSignal (some 7)) SIGINT)
        SIGINT [none]).2 = [] ∧
      invocations (handler (DelIgnoreSignal (SetIgnoreSignal (SetDefaultHandler NewSignal
        (some 7)) SIGINT) SIGINT) SIGINT [none]).2 = [⟨7, SIGINT, [none]⟩] :=
  ⟨rfl, (ignore_round_trip (SetDefaultHandler NewSignal (some 7)) SIGINT rfl).1,
    (ignore_round_trip (SetDefaultHandler NewSignal (some 7)) SIGINT rfl).2.2 [none], by decide⟩

/-- C14. Ignore map and registration table are independent: `SetIgnoreSignal` and
`DelIgnoreSignal` leave the table, the default handler and the three flags as they were;
`RegisterSignalHandler` and `UnregisterSignalHandler` leave the ignore map, the default handler
and the three flags as they were; and after registering and ignoring `s`, it is in both maps. -/
theorem ignore_and_table_independent (st : Signal) (s : SignalID) (h : Option HandlerRef) :
    ((SetIgnoreSignal st s).set = st.set ∧
        (SetIgnoreSignal st s).defaultHandler = st.defaultHandler ∧
        (SetIgnoreSignal st s).enable = st.enable ∧ (SetIgnoreSignal st s).tips = st.tips ∧
        (SetIgnoreSignal st s).goroutine = st.goroutine) ∧
      ((DelIgnoreSignal st s).set = st.set ∧
        (DelIgnoreSignal st s).defaultHandler = st.defaultHandler ∧
        (DelIgnoreSignal st s).enable = st.enable ∧ (DelIgnoreSignal st s).tips = st.tips ∧
        (DelIgnoreSignal st s).goroutine = st.goroutine) ∧
      ((RegisterSignalHandler st s h).ignore = st.ignore ∧
        (RegisterSignalHandler st s h).defaultHandler = st.defaultHandler ∧
        (RegisterSignalHandler st s h).enable = st.enable ∧
        (RegisterSignalHandler st s h).tips = st.tips ∧
        (RegisterSignalHandler st s h).goroutine = st.goroutine) ∧
      ((UnregisterSignalHandler st s).ignore = st.ignore ∧
        (UnregisterSignalHandler st s).defaultHandler = st.defaultHandler ∧
        (UnregisterSignalHandler st s).enable = st.enable ∧
        (UnregisterSignalHandler st s).tips = st.tips ∧
        (UnregisterSignalHandler st s).goroutine = st.goroutine) ∧
      ((SetIgnoreSignal (RegisterSignalHandler st s h) s).set s = some h ∧
        (SetIgnoreSignal (RegisterSignalHandler st s h) s).ignore s = some true ∧
        (RegisterSignalHandler (SetIgnoreSignal st s) s h).set s = some h ∧
        (RegisterSignalHandler (SetIgnoreSignal st s) s h).ignore s = some true) := by
  refine ⟨⟨rfl, rfl, rfl, rfl, rfl⟩, ⟨rfl, rfl, rfl, rfl, rfl⟩, ⟨rfl, rfl, rfl, rfl, rfl⟩,
    ⟨rfl, rfl, rfl, rfl, rfl⟩, ?_⟩
  simp [SetIgnoreSignal, RegisterSignalHandler, mapSet]

/-- C15. Initial state: `NewSignal` gives an empty registration table, an empty ignore map, no
default handler, `enable` and `tips` set and `goroutine` clear; dispatch of any signal on it
returns at the unhandled point with the one diagnostic line and no invocation. -/
theorem initial_state (s : SignalID) (args : List Arg) :
    NewSignal.set s = none ∧ NewSignal.ignore s = none ∧ NewSignal.defaultHandler = none ∧
      NewSignal.enable = true ∧ NewSignal.tips = true ∧ NewSignal.goroutine = false ∧
      handler NewSignal s args
        = (Outcome.unhandled,
            [Event.print s "unregistered handler and unset default handler" none]) ∧
      invocations (handler NewSignal s args).2 = [] :=
  ⟨rfl, rfl, rfl, rfl, rfl, rfl, rfl, rfl⟩

/-! ## Invocation mode and diagnostics -/

theorem views_verbosef (s : Signal) (sig : SignalID) (state : String)
    (ptr : Option (Option HandlerRef)) :
    detached (verbosef s sig state ptr) = [] ∧ inlineCalls (verbosef s sig state ptr) = [] ∧
      diagnostics (verbosef s sig state ptr) = if s.tips then [(sig, state)] else [] := by
  unfold verbosef
  cases s.tips <;> simp [detached, inlineCalls, diagnostics]

theorem views_verbosef_invoke (s : Signal) (sig : SignalID) (state : String)
    (ptr : Option (Option HandlerRef)) (h : HandlerRef) (args : List Arg) :
    detached (verbosef s sig state ptr ++ [invoke s h sig args])
        = (if s.goroutine then [⟨h, sig, args⟩] else []) ∧
      inlineCalls (verbosef s sig state ptr ++ [invoke s h sig args])
        = (if s.goroutine then [] else [⟨h, sig, args⟩]) ∧
      diagnostics (verbosef s sig state ptr ++ [invoke s h sig args])
        = if s.tips then [(sig, state)] else [] := by
  unfold verbosef invoke
  cases s.tips <;> cases s.goroutine <;> simp [detached, inlineCalls, diagnostics]

theorem handler_views (st : Signal) (s : SignalID) (args : List Arg) :
    detached (handler st s args).2
        = (if st.goroutine then invocations (handler st s args).2 else []) ∧
      inlineCalls (handler st s args).2
        = (if st.goroutine then [] else invocations (handler st s args).2) ∧
      diagnostics (handler st s args).2
        = if st.tips then [(s, stateText (handler st s args).1)] else [] := by
  unfold handler
  cases hen : st.enable
  · simp [views_verbosef, invocations_verbosef, stateText]
  · cases hig : st.ignore s with
    | some b => simp [views_verbosef, invocations_verbosef, stateText]
    | none =>
      cases hset : st.set s with
      | some e =>
        cases e with
        | some h => simp [views_verbosef_invoke, invocations_verbosef_invoke, stateText]
        | none => simp [views_verbosef, invocations_verbosef, stateText]
      | none =>
        cases hd : st.defaultHandler with
        | some d => simp [views_verbosef_invoke, invocations_verbosef_invoke, stateText]
        | none => simp [views_verbosef, invocations_verbosef, stateText]

theorem handler_selection (st st2 : Signal) (s : SignalID) (args : List Arg)
    (h1 : st2.defaultHandler = st.defaultHandler) (h2 : st2.set = st.set)
    (h3 : st2.ignore = st.ignore) (h4 : st2.enable = st.enable) :
    (handler st2 s args).1 = (handler st s args).1 ∧
      invocations (handler st2 s args).2 = invocations (handler st s args).2 := by
  unfold handler
  rw [h1, h2, h3, h4]
  cases hen : st.enable
  · simp [invocations_verbosef]
  · cases hig : st.ignore s with
    | some b => simp [invocations_verbosef]
    | none =>
      cases hset : st.set s with
      | some e =>
        cases e with
        | some h => simp [invocations_verbosef_invoke]
        | none => simp [invocations_verbosef]
      | none =>
        cases hd : st.defaultHandler with
        | some d => simp [invocations_verbosef_invoke]
        | none => simp [invocations_verbosef]

/-- C16. Invocation mode follows the concurrent flag and nothing else: when dispatch selects a
handler `h` (`enable` set, the signal not ignored, `h` the table entry or, with no entry, the
default handler), it makes exactly the one invocation of `h` with the signal and the arguments,
as a goroutine if and only if `goroutine` is set and as an inline call if and only if it is
clear; after `SetConcurrent b` the same `h` is launched as a goroutine for `b = true` and called
inline for `b = false`.  In every state, selecting or not, the invocations made are all
goroutines when the flag is set and all inline when it is clear, and `SetConcurrent b` changes
neither the return point nor which handler is invoked with which arguments. -/
theorem invocation_mode_follows_concurrent (st : Signal) (s : SignalID) (args : List Arg)
    (b : Bool) :
    detached (handler st s args).2
        = (if st.goroutine then invocations (handler st s args).2 else []) ∧
      inlineCalls (handler st s args).2
        = (if st.goroutine then [] else invocations (handler st s args).2) ∧
      (SetConcurrent st b).goroutine = b ∧
      (handler (SetConcurrent st b) s args).1 = (handler st s args).1 ∧
      invocations (handler (SetConcurrent st b) s args).2
        = invocations (handler st s args).2 ∧
      detached (handler (SetConcurrent st b) s args).2
        = (if b then invocations (handler st s args).2 else []) ∧
      inlineCalls (handler (SetConcurrent st b) s args).2
        = (if b then [] else invocations (handler st s args).2) ∧
      ∀ h : HandlerRef, st.enable = true → st.ignore s = none →
        (st.set s = some (some h) ∨ (st.set s = none ∧ st.defaultHandler = some h)) →
        invocations (handler st s args).2 = [⟨h, s, args⟩] ∧
          (detached (handler st s args).2 = [⟨h, s, args⟩] ↔ st.goroutine = true) ∧
          (inlineCalls (handler st s args).2 = [⟨h, s, args⟩] ↔ st.goroutine = false) ∧
          (Event.spawn h s args ∈ (handler st s args).2 ↔ st.goroutine = true) ∧
          (Event.call h s args ∈ (handler st s args).2 ↔ st.goroutine = false) ∧
          detached (handler (SetConcurrent st b) s args).2
            = (if b then [⟨h, s, args⟩] else []) ∧
          inlineCalls (handler (SetConcurrent st b) s args).2
            = (if b then [] else [⟨h, s, args⟩]) := by
  have hsel := handler_selection st (SetConcurrent st b) s args rfl rfl rfl rfl
  have hv := handler_views (SetConcurrent st b) s args
  have hd : detached (handler (SetConcurrent st b) s args).2
      = (if b then invocations (handler st s args).2 else []) := by
    rw [hv.1, hsel.2]
    rfl
  have hi : inlineCalls (handler (SetConcurrent st b) s args).2
      = (if b then [] else invocations (handler st s args).2) := by
    rw [hv.2.1, hsel.2]
    rfl
  refine ⟨(handler_views st s args).1, (handler_views st s args).2.1, rfl, hsel.1, hsel.2,
    hd, hi, ?_⟩
  intro h hen hig hchoice
  have hinv : invocations (handler st s args).2 = [⟨h, s, args⟩] := by
    unfold handler
    rcases hchoice with hset | ⟨hset, hdef⟩
    · simp [hen, hig, hset, invocations_verbosef_invoke]
    · simp [hen, hig, hset, hdef, invocations_verbosef_invoke]
  have hev : (handler st s args).2
      = verbosef st s (stateText (handler st s args).1)
          (if st.set s = none then some none else some (some h)) ++ [invoke st h s args] := by
    unfold handler
    rcases hchoice with hset | ⟨hset, hdef⟩
    · simp [hen, hig, hset, stateText]
    · simp [hen, hig, hset, hdef, stateText]
  have hmem : ∀ e : Event, e ∈ (handler st s args).2 →
      (∃ a c d, e = Event.print a c d) ∨ e = invoke st h s args := by
    intro e he
    rw [hev] at he
    rcases List.mem_append.mp he with he | he
    · left
      unfold verbosef at he
      cases htips : st.tips
      · simp [htips] at he
      · simp [htips] at he
        exact ⟨_, _, _, he⟩
    · right
      simpa using he
  have hlast : invoke st h s args ∈ (handler st s args).2 := by
    rw [hev]
    simp
  refine ⟨hinv, ?_, ?_, ?_, ?_, by rw [hd, hinv], by rw [hi, hinv]⟩
  · rw [(handler_views st s args).1, hinv]
    cases st.goroutine <;> simp
  · rw [(handler_views st s args).2.1, hinv]
    cases st.goroutine <;> simp
  · constructor
    · intro he
      rcases hmem _ he with ⟨a, c, d, hp⟩ | hp
      · cases hp
      · unfold invoke at hp
        cases hg : st.goroutine
        · simp [hg] at hp
        · rfl
    · intro hg
      have := hlast
      simpa [invoke, hg] using this
  · constructor
    · intro he
      rcases hmem _ he with ⟨a, c, d, hp⟩ | hp
      · cases hp
      · unfold invoke at hp
        cases hg : st.goroutine
        · rfl
        · simp [hg] at hp
    · intro hg
      have := hlast
      simpa [invoke, hg] using this

theorem invocation_mode_follows_concurrent_witness :
    invocations (handler (SetConcurrent (RegisterSignalHandler NewSignal SIGINT (some 5)) true)
        SIGINT [none]).2 = [⟨5, SIGINT, [none]⟩] ∧
      (detached (handler (SetConcurrent (RegisterSignalHandler NewSignal SIGINT (some 5)) true)
          SIGINT [none]).2 = [⟨5, SIGINT, [none]⟩] ↔
        (SetConcurrent (RegisterSignalHandler NewSignal SIGINT (some 5)) true).goroutine
          = true) ∧
      invocations (handler (SetDefaultHandler NewSignal (some 7)) SIGTERM [none]).2
        = [⟨7, SIGTERM, [none]⟩] ∧
      (inlineCalls (handler (SetDefaultHandler NewSignal (some 7)) SIGTERM [none]).2
          = [⟨7, SIGTERM, [none]⟩] ↔
        (SetDefaultHandler NewSignal (some 7)).goroutine = false) :=
  match invocation_mode_follows_concurrent
      (SetConcurrent (RegisterSignalHandler NewSignal SIGINT (some 5)) true) SIGINT [none] true,
    invocation_mode_follows_concurrent (SetDefaultHandler NewSignal (some 7)) SIGTERM [none]
      false with
  | ⟨_, _, _, _, _, _, _, hreg⟩, ⟨_, _, _, _, _, _, _, hdef⟩ =>
    ⟨(hreg 5 rfl rfl (Or.inl rfl)).1, (hreg 5 rfl rfl (Or.inl rfl)).2.1,
      (hdef 7 rfl rfl (Or.inr ⟨rfl, rfl⟩)).1, (hdef 7 rfl rfl (Or.inr ⟨rfl, rfl⟩)).2.2.1⟩

/-- C17. Diagnostics are gated by the verbose flag only: dispatch prints nothing when `tips` is
clear, and exactly one line, carrying the signal and the state text of the return point
reached, when `tips` is set; the six state texts are pairwise different; and `SetVerbose b`
changes neither the return point nor the invocations made. -/
theorem diagnostics_gated_by_verbose (st : Signal) (s : SignalID) (args : List Arg) (b : Bool) :
    diagnostics (handler st s args).2
        = (if st.tips then [(s, stateText (handler st s args).1)] else []) ∧
      (∀ o1 o2 : Outcome, stateText o1 = stateText o2 → o1 = o2) ∧
      (SetVerbose st b).tips = b ∧
      diagnostics (handler (SetVerbose st b) s args).2
        = (if b then [(s, stateText (handler st s args).1)] else []) ∧
      (handler (SetVerbose st b) s args).1 = (handler st s args).1 ∧
      invocations (handler (SetVerbose st b) s args).2 = invocations (handler st s args).2 ∧
      detached (handler (SetVerbose st b) s args).2 = detached (handler st s args).2 := by
  have hsel := handler_selection st (SetVerbose st b) s args rfl rfl rfl rfl
  have hv := handler_views (SetVerbose st b) s args
  refine ⟨(handler_views st s args).2.2, ?_, rfl, ?_, hsel.1, hsel.2, ?_⟩
  · intro o1 o2 h
    cases o1 <;> cases o2 <;> first | rfl | (exfalso; revert h; decide)
  · rw [hv.2.2, hsel.1]
    rfl
  · rw [hv.1, (handler_views st s args).1, hsel.2]
    rfl

/-! ## Mutex discipline of the public methods -/

theorem Stop_state (p q : Proc) (i : Nat) (h : Stop p i = some q) : q.s = p.s := by
  unfold Stop at h
  cases hr : receive p i Recv.stop with
  | none => simp [hr] at h
  | some m =>
    simp only [hr, Option.some.injEq] at h
    subst h
    exact (receive_loops p m i Recv.stop hr).2.2

theorem deliver_state (p q : Proc) (i : Nat) (x : SignalID) (ret : Bool)
    (h : deliver p i x ret = some q) : q.s = p.s := by
  rcases deliver_cases p q i x ret h with h1 | h1 | ⟨ev, h1, _⟩
  · rw [h1]
  · exact (receive_loops p q i (Recv.sig x) h1).2.2
  · exact (stall_loops p q i ev h1).2.2

theorem step_state_eq_runBody (p q : Proc) (o : Op) (h : step p o = some q) :
    q.s = runBody p.s (body o) := by
  cases o with
  | stop i => exact Stop_state p q i h
  | deliver i x ret => exact deliver_state p q i x ret h
  | _ =>
    first
      | (simp only [step, Option.some.injEq] at h
         subst h
         rfl)
      | (simp only [step] at h
         rw [withLock_some _ _ _ h]
         rfl)

/-- C18. The three plain setters write outside the mutex: the bodies of `SetVerbose`,
`SetConcurrent` and `SetDefaultHandler` write `tips`, `goroutine` and `defaultHandler` without
holding it, while `RegisterSignalHandler`, `UnregisterSignalHandler`, `SetIgnoreSignal`,
`DelIgnoreSignal`, `Disable` and `Enable` make every write between `Lock` and `Unlock`. -/
theorem setters_write_outside_mutex (b : Bool) (h : Option HandlerRef) (sig : SignalID) :
    unguarded (Op.setVerbose b) = [Field.tips] ∧
      unguarded (Op.setConcurrent b) = [Field.goroutine] ∧
      unguarded (Op.setDefaultHandler h) = [Field.defaultHandler] ∧
      unguarded (Op.register sig h) = [] ∧ unguarded (Op.unregister sig) = [] ∧
      unguarded (Op.setIgnore sig) = [] ∧ unguarded (Op.delIgnore sig) = [] ∧
      unguarded Op.disable = [] ∧ unguarded Op.enable = [] :=
  ⟨rfl, rfl, rfl, rfl, rfl, rfl, rfl, rfl, rfl⟩

/-! ## Reachable states -/

theorem step_ignore_set (p q : Proc) (x : SignalID) (h : step p (Op.setIgnore x) = some q) :
    q.s.ignore x = some true := by
  rw [step_state_eq_runBody p q _ h]
  simp [body, runBody, mapSet]

theorem step_ignore_del (p q : Proc) (x : SignalID) (h : step p (Op.delIgnore x) = some q) :
    q.s.ignore x = none := by
  rw [step_state_eq_runBody p q _ h]
  simp [body, runBody, mapDelete]

theorem step_ignore_other (p q : Proc) (o : Op) (x : SignalID) (h : step p o = some q)
    (h1 : o ≠ Op.setIgnore x) (h2 : o ≠ Op.delIgnore x) : q.s.ignore x = p.s.ignore x := by
  rw [step_state_eq_runBody p q o h]
  cases o with
  | setIgnore y =>
    have hne : x ≠ y := fun e => h1 (by rw [e])
    simp [body, runBody, mapSet, hne]
  | delIgnore y =>
    have hne : x ≠ y := fun e => h2 (by rw [e])
    simp [body, runBody, mapDelete, hne]
  | _ => rfl

theorem step_ignore_true (p q : Proc) (o : Op) (h : step p o = some q)
    (hp : ∀ x b, p.s.ignore x = some b → b = true) :
    ∀ x b, q.s.ignore x = some b → b = true := by
  intro x b hb
  by_cases h1 : o = Op.setIgnore x
  · subst h1
    rw [step_ignore_set p q x h] at hb
    exact (Option.some.inj hb).symm
  · by_cases h2 : o = Op.delIgnore x
    · subst h2
      rw [step_ignore_del p q x h] at hb
      cases hb
    · rw [step_ignore_other p q o x h h1 h2] at hb
      exact hp x b hb

theorem exec_ignore_true (ops : List Op) :
    ∀ (p q : Proc), exec p ops = some q → (∀ x b, p.s.ignore x = some b → b = true) →
      ∀ x b, q.s.ignore x = some b → b = true := by
  induction ops with
  | nil =>
    intro p q h hp
    simp only [exec, Option.some.injEq] at h
    subst h
    exact hp
  | cons o os ih =>
    intro p q h hp
    simp only [exec] at h
    cases hs : step p o with
    | none => simp [hs] at h
    | some m =>
      simp only [hs] at h
      exact ih m q h (step_ignore_true p m o hs hp)

theorem split_cons (a d o : Op) (os : List Op) :
    (∃ pre post, o :: os = pre ++ a :: post ∧ d ∉ post) ↔
      (o = a ∧ d ∉ os) ∨ (∃ pre post, os = pre ++ a :: post ∧ d ∉ post) := by
  constructor
  · rintro ⟨pre, post, h, hd⟩
    cases pre with
    | nil =>
      simp only [List.nil_append, List.cons.injEq] at h
      obtain ⟨h1, h2⟩ := h
      subst h1 h2
      exact Or.inl ⟨rfl, hd⟩
    | cons c pre2 =>
      simp only [List.cons_append, List.cons.injEq] at h
      exact Or.inr ⟨pre2, post, h.2, hd⟩
  · rintro (⟨h1, hd⟩ | ⟨pre, post, h, hd⟩)
    · subst h1
      exact ⟨[], os, rfl, hd⟩
    · subst h
      exact ⟨o :: pre, post, rfl, hd⟩

theorem exec_ignore_recent (x : SignalID) (ops : List Op) :
    ∀ (p q : Proc), exec p ops = some q →
      ((q.s.ignore x).isSome = true ↔
        (∃ pre post, ops = pre ++ Op.setIgnore x :: post ∧ Op.delIgnore x ∉ post) ∨
          ((p.s.ignore x).isSome = true ∧ Op.delIgnore x ∉ ops)) := by
  induction ops with
  | nil =>
    intro p q h
    simp only [exec, Option.some.injEq] at h
    subst h
    simp
  | cons o os ih =>
    intro p q h
    simp only [exec] at h
    cases hs : step p o with
    | none => simp [hs] at h
    | some m =>
      simp only [hs] at h
      rw [ih m q h, split_cons]
      generalize (∃ pre post, os = pre ++ Op.setIgnore x :: post ∧ Op.delIgnore x ∉ post) = R
      by_cases h1 : o = Op.setIgnore x
      · subst h1
        rw [step_ignore_set p m x hs]
        simp
        tauto
      · by_cases h2 : o = Op.delIgnore x
        · subst h2
          rw [step_ignore_del p m x hs]
          simp
        · rw [step_ignore_other p m o x hs h1 h2]
          have h3 : ¬ Op.delIgnore x = o := fun e => h2 e.symm
          simp [h1, h3]

/-- C19. Ignore-map invariant: in every state reached from a fresh instance by public methods
and signal arrivals, every entry of the ignore map holds `true`, so the key-presence test of
dispatch agrees with the stored flag; and a signal is in the map exactly when some
`SetIgnoreSignal` of it has no later `DelIgnoreSignal` of it. -/
theorem ignore_entries_true (ops : List Op) (p : Proc) (hex : exec NewProc ops = some p)
    (x : SignalID) :
    (∀ b, p.s.ignore x = some b → b = true) ∧
      ((p.s.ignore x).isSome = true ↔ p.s.ignore x = some true) ∧
      ((p.s.ignore x).isSome = true ↔
        ∃ pre post, ops = pre ++ Op.setIgnore x :: post ∧ Op.delIgnore x ∉ post) := by
  have hinv : ∀ b, p.s.ignore x = some b → b = true := by
    intro b hb
    refine exec_ignore_true ops NewProc p hex ?_ x b hb
    intro y c hc
    simp [NewProc, NewSignal] at hc
  refine ⟨hinv, ?_, ?_⟩
  · constructor
    · intro h
      cases hb : p.s.ignore x with
      | none => simp [hb] at h
      | some b => rw [hinv b hb]
    · intro h
      simp [h]
  · rw [exec_ignore_recent x ops NewProc p hex]
    simp [NewProc, NewSignal]

theorem ignore_entries_true_witness :
    ∃ p : Proc,
      exec NewProc [Op.setIgnore SIGINT, Op.delIgnore SIGINT, Op.setIgnore SIGINT, Op.run]
          = some p ∧
        ((∀ b, p.s.ignore SIGINT = some b → b = true) ∧
          ((p.s.ignore SIGINT).isSome = true ↔ p.s.ignore SIGINT = some true) ∧
          ((p.s.ignore SIGINT).isSome = true ↔
            ∃ pre post,
              [Op.setIgnore SIGINT, Op.delIgnore SIGINT, Op.setIgnore SIGINT, Op.run]
                  = pre ++ Op.setIgnore SIGINT :: post ∧
                Op.delIgnore SIGINT ∉ post)) :=
  ⟨_, rfl, ignore_entries_true
    [Op.setIgnore SIGINT, Op.delIgnore SIGINT, Op.setIgnore SIGINT, Op.run] _ rfl SIGINT⟩

/-! ## Arguments passed by the delivery loop -/

/-- C20. Arguments passed by the delivery loop: the iteration that receives `x` produces the
events of `handler s x [nil]`; when `enable` is set, `x` is not ignored and the resolved handler
(the table entry, or the default handler when there is no entry) is `h`, that iteration makes
the one invocation of `h` with `x` and an argument list of exactly one element, nil, which is
not the empty list; and dispatch passes on any argument list as it is. -/
theorem loop_passes_single_nil_arg (s : Signal) (x : SignalID) (h : HandlerRef)
    (hen : s.enable = true) (hig : s.ignore x = none)
    (hsel : s.set x = some (some h) ∨ (s.set x = none ∧ s.defaultHandler = some h)) :
    (loopIter s (Recv.sig x)).2 = (handler s x [none]).2 ∧
      invocations (loopIter s (Recv.sig x)).2 = [⟨h, x, [none]⟩] ∧
      (∀ inv ∈ invocations (loopIter s (Recv.sig x)).2,
        inv.sig = x ∧ inv.args.length = 1 ∧ inv.args ≠ [] ∧ inv.args.head? = some none) ∧
      (∀ args : List Arg, invocations (handler s x args).2 = [⟨h, x, args⟩]) ∧
      ∀ (p q : Proc) (i : Nat), p.s = s → receive p i (Recv.sig x) = some q →
        q.out = p.out ++ (handler s x [none]).2 := by
  have hfwd : ∀ args : List Arg, invocations (handler s x args).2 = [⟨h, x, args⟩] := by
    intro args
    unfold handler
    rcases hsel with hset | ⟨hset, hd⟩
    · simp [hen, hig, hset, invocations_verbosef_invoke]
    · simp [hen, hig, hset, hd, invocations_verbosef_invoke]
  have hloop : (loopIter s (Recv.sig x)).2 = (handler s x [none]).2 := by
    simp [loopIter, selectStmt, caseBody]
  refine ⟨hloop, by rw [hloop, hfwd], ?_, hfwd, ?_⟩
  · intro inv hinv
    rw [hloop, hfwd] at hinv
    simp at hinv
    subst hinv
    simp
  · intro p q i hp hq
    unfold receive at hq
    split at hq
    · simp only [Option.some.injEq] at hq
      subst hq
      simp [hp, hloop]
    · simp at hq

theorem loop_passes_single_nil_arg_witness :
    invocations (loopIter (SetDefaultHandler NewSignal (some 7)) (Recv.sig SIGINT)).2
        = [⟨7, SIGINT, [none]⟩] ∧
      invocations (loopIter (RegisterSignalHandler NewSignal SIGINT (some 5))
        (Recv.sig SIGINT)).2 = [⟨5, SIGINT, [none]⟩] :=
  ⟨(loop_passes_single_nil_arg (SetDefaultHandler NewSignal (some 7)) SIGINT 7 rfl rfl
      (Or.inr ⟨rfl, rfl⟩)).2.1,
    (loop_passes_single_nil_arg (RegisterSignalHandler NewSignal SIGINT (some 5)) SIGINT 5 rfl
      rfl (Or.inl rfl)).2.1⟩

end Gosignal
